import Mathlib

/-!
Verification of the package-query resolution and caching module of the
`csharp-package-autocomplete` VS Code extension.

The repository carries two TypeScript source files with largely identical
core logic:
  * `src/extension.ts` — classes `PackageCompletionProvider` and
    `PackageHoverProvider`;
  * `src/unnamed/part_000` — classes `DirectiveCompletionProvider` and
    `DirectiveHoverProvider`.
`compareVersions`, `searchPackages`, the version-filter pipeline and the
completion-item construction are textually identical between the two files,
so they are embedded once below.  The completion resolvers and the hover
providers differ between the files and are embedded separately.

Conventions of the shallow embedding:
  * JavaScript numbers that only ever hold non-negative integers are `Nat`;
    `Date.now()` timestamps are `Nat` milliseconds; values that can go
    negative (the comparator result, `999999999 - totalDownloads`) are `Int`.
  * The two `Map` fields of the provider are embedded as functions
    `String → Option _`; `Map.set` is a pointwise functional update,
    `Map.has`/`Map.get` are `Option` inspection.
  * The network is a parameter: `RemoteResponse` is `success` with the
    decoded payload, or `failure` covering transport errors, timeouts and
    malformed bodies (all of which land in the same `catch` block of the
    source).
  * JS string methods (`split`, `toLowerCase`, `startsWith`, `includes`,
    `padStart`, `substring`) are modelled by structural functions on
    `List Char` so that every definition evaluates inside the kernel.
-/

/-! ### JavaScript string primitives used by the source -/

/-- JS `\s` character class, restricted to the ASCII whitespace characters
that can occur in an editor line (the source only ever matches `\s` inside a
single document line). -/
def isJsSpace (c : Char) : Bool :=
  c = ' ' || c = '\t' || c = '\x0b' || c = '\x0c' || c = '\r' || c = '\n'

/-- JS `\w` character class: `[A-Za-z0-9_]`. -/
def isWordChar (c : Char) : Bool :=
  c.isAlphanum || c = '_'

/-- JS `s.split(sep)` for a one-character separator: splits at every
occurrence of `sep`, keeping empty pieces (`"".split(".") = [""]`,
`"a..b".split(".") = ["a","","b"]`). -/
def splitOnChar (sep : Char) : List Char → List (List Char)
  | [] => [[]]
  | c :: rest =>
    if c = sep then [] :: splitOnChar sep rest
    else
      match splitOnChar sep rest with
      | [] => [[c]]
      | h :: t => (c :: h) :: t

/-- `s.split(sep)` at the `String` interface. -/
def jsSplit (s : String) (sep : Char) : List String :=
  (splitOnChar sep s.data).map (⟨·⟩)

/-- JS `s.toLowerCase()` on the ASCII range: `A`–`Z` map to `a`–`z`, other
characters are unchanged (this agrees with `Char.toLower`). -/
def jsToLower (s : String) : String :=
  ⟨s.data.map Char.toLower⟩

/-- JS `String(n)` on an integer value: decimal digits, with a leading `-`
for negative values. -/
def jsNumToString (n : Int) : String :=
  if n < 0 then "-" ++ Nat.repr n.natAbs else Nat.repr n.toNat

/-- JS `s.padStart(len, c)` for a one-character pad string: left-pad to
`len` characters.  When `s.length ≥ len` the replicate count is `0` and the
string is returned unchanged, exactly as in JS. -/
def jsPadStart (s : String) (len : Nat) (c : Char) : String :=
  ⟨List.replicate (len - s.data.length) c ++ s.data⟩

/-- JS `hay.includes(needle)`: contiguous-substring containment. -/
def listContainsSub (hay needle : List Char) : Bool :=
  (List.range (hay.length + 1)).any (fun i => needle.isPrefixOf (hay.drop i))

/-- JS `hay.includes(needle)` at the `String` interface. -/
def jsIncludes (hay needle : String) : Bool :=
  listContainsSub hay.data needle.data

/-- JS `s.startsWith(p)`. -/
def jsStartsWith (s p : String) : Bool :=
  p.data.isPrefixOf s.data

/-- JS `s.substring(a, b)`: clamps both indices to the string length and
swaps them when given out of order. -/
def jsSubstring (s : List Char) (a b : Nat) : List Char :=
  let a' := min a s.length
  let b' := min b s.length
  (s.drop (min a' b')).take (max a' b' - min a' b')

/-! ### `compareVersions` (identical in both source files)

```ts
private compareVersions(a: string, b: string): number {
  const partsA = a.split(".").map(Number);
  const partsB = b.split(".").map(Number);
  for (let i = 0; i < Math.max(partsA.length, partsB.length); i++) {
    const partA = partsA[i] || 0;
    const partB = partsB[i] || 0;
    if (partA !== partB) {
      return partA - partB;
    }
  }
  return 0;
}
```
-/

/-- Value of one dot-separated segment as the loop body observes it.  The
loop reads `Number(seg) || 0`, so a segment that is a plain digit string
contributes its numeric value, and a segment for which `Number` yields `NaN`
(or an empty segment, for which `Number` yields `0`) contributes `0`.  The
claims restrict attention to dot-separated non-negative integers, where this
function is exactly `Number`. -/
def segValue (s : String) : Nat :=
  if s.data ≠ [] ∧ s.data.all Char.isDigit then
    s.data.foldl (fun a c => a * 10 + (c.toNat - 48)) 0
  else 0

/-- The `for` loop of `compareVersions`: `fuel` is the number of remaining
iterations (`Math.max(partsA.length, partsB.length) - i` at entry), `i` the
current index; out-of-range reads (`partsA[i] || 0`) are `getD i 0`. -/
def comparePartsLoop (pa pb : List Nat) : Nat → Nat → Int
  | _, 0 => 0
  | i, fuel + 1 =>
    let partA := pa.getD i 0
    let partB := pb.getD i 0
    if partA ≠ partB then (partA : Int) - (partB : Int)
    else comparePartsLoop pa pb (i + 1) fuel

/-- `compareVersions` from the source (both files, identical). -/
def compareVersions (a b : String) : Int :=
  let partsA := (jsSplit a '.').map segValue
  let partsB := (jsSplit b '.').map segValue
  comparePartsLoop partsA partsB 0 (max partsA.length partsB.length)

/-- The list of segment values a version string denotes (used to state
claims about the comparator). -/
def versionSegments (s : String) : List Nat :=
  (jsSplit s '.').map segValue

/-- A version string made of dot-separated non-negative integers: every
dot-separated segment is a nonempty digit string. -/
def isDottedNat (s : String) : Bool :=
  (jsSplit s '.').all (fun seg => seg.data ≠ [] ∧ seg.data.all Char.isDigit)

/-! ### Data model and `searchPackages` (identical in both source files)

```ts
private packageCache = new Map<string, NuGetPackage[]>();
private cacheExpiry = new Map<string, number>();
private readonly CACHE_DURATION = 5 * 60 * 1000;

private async searchPackages(query: string): Promise<NuGetPackage[]> {
  const cacheKey = query.toLowerCase();
  const now = Date.now();
  if (
    this.packageCache.has(cacheKey) &&
    this.cacheExpiry.has(cacheKey) &&
    this.cacheExpiry.get(cacheKey)! > now
  ) {
    return this.packageCache.get(cacheKey)!;
  }
  try {
    const response = await axios.get<NuGetSearchResult>(..., { params: { q: query, take: 20, prerelease: false }, timeout: 5000 });
    const packages: NuGetPackage[] = response.data.data.map((item) => ({
      id: item.id, version: item.version,
      description: item.description, totalDownloads: item.totalDownloads,
    }));
    this.packageCache.set(cacheKey, packages);
    this.cacheExpiry.set(cacheKey, now + this.CACHE_DURATION);
    return packages;
  } catch (error) {
    console.error(...);
    return [];
  }
}
```
-/

/-- One element of `response.data.data` of the NuGet search endpoint. -/
structure SearchResultItem where
  id : String
  version : String
  description : Option String
  totalDownloads : Option Nat
deriving Repr, DecidableEq

/-- The internal `NuGetPackage` record shape. -/
structure NuGetPackage where
  id : String
  version : String
  description : Option String
  totalDownloads : Option Nat
deriving Repr, DecidableEq

/-- The per-item mapping applied to `response.data.data`. -/
def toPackage (item : SearchResultItem) : NuGetPackage :=
  { id := item.id
    version := item.version
    description := item.description
    totalDownloads := item.totalDownloads }

/-- Outcome of one remote HTTP request: `success` carries the decoded
payload; `failure` covers transport errors, timeouts and malformed response
bodies, all of which land in the same `catch` block of the source. -/
inductive RemoteResponse (α : Type)
  | success (val : α)
  | failure
deriving Repr, DecidableEq

/-- The two `Map` fields of the completion provider. -/
structure ProviderState where
  packageCache : String → Option (List NuGetPackage)
  cacheExpiry : String → Option Nat

/-- `CACHE_DURATION = 5 * 60 * 1000` (five minutes in milliseconds). -/
def CACHE_DURATION : Nat := 5 * 60 * 1000

/-- The cache-validity condition of `searchPackages`:
`packageCache.has(cacheKey) && cacheExpiry.has(cacheKey) &&
 cacheExpiry.get(cacheKey)! > now`. -/
def cacheValid (st : ProviderState) (now : Nat) (cacheKey : String) : Bool :=
  (st.packageCache cacheKey).isSome &&
  (st.cacheExpiry cacheKey).isSome &&
  ((st.cacheExpiry cacheKey).getD 0 > now)

/-- `searchPackages` from the source (both files, identical).  Returns the
produced package list, the provider state after the call, and whether a
remote request was issued (`true` exactly when the `axios.get` line runs).
The function is total: in the failure case the source catches, logs and
returns `[]`, which is the `.failure` branch here. -/
def searchPackages (st : ProviderState) (now : Nat) (query : String)
    (remote : RemoteResponse (List SearchResultItem)) :
    List NuGetPackage × ProviderState × Bool :=
  let cacheKey := jsToLower query
  if cacheValid st now cacheKey then
    ((st.packageCache cacheKey).getD [], st, false)
  else
    match remote with
    | .success data =>
      let packages := data.map toPackage
      (packages,
       { packageCache := fun k => if k = cacheKey then some packages else st.packageCache k
         cacheExpiry := fun k => if k = cacheKey then some (now + CACHE_DURATION) else st.cacheExpiry k },
       true)
    | .failure => ([], st, true)

/-- The provider state at activation: both maps empty. -/
def initialState : ProviderState :=
  { packageCache := fun _ => none, cacheExpiry := fun _ => none }

/-! ### Completion-item construction (identical in both files:
`createCompletionItem` in `extension.ts`, `createPackageCompletionItem` in
`part_000`)

```ts
const item = new vscode.CompletionItem(pkg.id, vscode.CompletionItemKind.Module);
item.insertText = `${pkg.id}@${pkg.version}`;
...
item.sortText = pkg.totalDownloads
  ? String(999999999 - pkg.totalDownloads).padStart(10, "0")
  : "9999999999";
```
-/

/-- The fields of the produced `vscode.CompletionItem` that the claims are
about.  The `documentation` markdown and the `detail` string are pure
presentation (and locale-dependent via `toLocaleString`) and are not
modelled. -/
structure CompletionItem where
  label : String
  insertText : String
  sortText : String
deriving Repr, DecidableEq

/-- JS truthiness of `pkg.totalDownloads : number | undefined`:
`undefined` and `0` are falsy. -/
def jsTruthyNat : Option Nat → Bool
  | none => false
  | some d => d ≠ 0

/-- `createPackageCompletionItem` / `createCompletionItem` from the source,
restricted to the modelled fields. -/
def createPackageCompletionItem (pkg : NuGetPackage) : CompletionItem :=
  { label := pkg.id
    insertText := pkg.id ++ "@" ++ pkg.version
    sortText :=
      if jsTruthyNat pkg.totalDownloads then
        jsPadStart (jsNumToString ((999999999 : Int) - (pkg.totalDownloads.getD 0 : Nat))) 10 '0'
      else "9999999999" }

/-- Strict lexicographic comparison of character lists by code point (for
ASCII characters this is exactly the UTF-16 code-unit comparison JS and
VS Code use on strings). -/
def charListLt : List Char → List Char → Bool
  | [], [] => false
  | [], _ :: _ => true
  | _ :: _, [] => false
  | a :: as, b :: bs => if a < b then true else if b < a then false else charListLt as bs

/-- VS Code orders completion items by ascending lexicographic comparison of
their `sortText` strings, so an item is ranked above another exactly when
its `sortText` is strictly smaller. -/
def ranksAbove (a b : CompletionItem) : Prop :=
  charListLt a.sortText.data b.sortText.data = true

/-! ### Version-completion filter pipeline (identical in both files)

```ts
const filteredVersions = versions
  .filter((v) => !v.includes("-") && v.startsWith(versionPrefix))
  .sort((a, b) => this.compareVersions(b, a))
  .slice(0, 10);
```
-/

/-- The comparator handed to `Array.prototype.sort`, rendered as the
boolean "may come before" relation: JS sorts so that `x` precedes `y` when
`comparator(x,y) ≤ 0`, and the comparator is `(a, b) => compareVersions(b, a)`. -/
def versionSortLe (a b : String) : Bool :=
  compareVersions b a ≤ 0

/-- Stable insertion of `x` into `l`: `x` is placed before the first
element it may precede. -/
def stableInsert (le : α → α → Bool) (x : α) : List α → List α
  | [] => [x]
  | y :: l => if le x y then x :: y :: l else y :: stableInsert le x l

/-- A stable sort with respect to the boolean relation `le`.
`Array.prototype.sort` is required to be stable, and for the consistent
comparator used by the source (`versionSortLe` is total and transitive,
proved below) every stable sort produces the same output, so this models
the JS call `versions.sort((a, b) => compareVersions(b, a))`. -/
def stableSort (le : α → α → Bool) : List α → List α
  | [] => []
  | x :: l => stableInsert le x (stableSort le l)

/-- The filter/sort/slice pipeline of `getVersionCompletions` (both files);
`slice(0, 10)` is `take 10`. -/
def filterSortVersions (versions : List String) (versionPfx : String) : List String :=
  (stableSort versionSortLe
    (versions.filter (fun v => !(jsIncludes v "-") && jsStartsWith v versionPfx))).take 10

/-! ### Directive classification (regex matches on the line prefix)

Both files test the text from line start to cursor against
`/^#:package\s+([^@\s]*)/` (the package-name match) and
`/^#:package\s+(\w+(?:\.\w+)*)@(.*)$/` (the package-version match).
These anchored regexes are deterministic and are rendered below as direct
parsers:
  * for the first, `\s+` greedily takes the whitespace run after the
    literal (at least one character), and the capture is the following
    maximal run of characters that are neither `@` nor whitespace;
  * for the second, the id must be exactly the maximal run of `[\w.]`
    characters after the whitespace (neither `\w` nor `.` can match the
    `@` of the pattern), that run must have the shape `\w+(\.\w+)*`, the
    next character must be `@`, and the remainder of the line (to `$`) is
    the version-prefix capture.
-/

/-- Capture of `/^#:package\s+([^@\s]*)/` on the line prefix, when the
regex matches. -/
def matchPackageQuery (line : List Char) : Option (List Char) :=
  if "#:package".data.isPrefixOf line then
    let rest := line.drop 9
    if (rest.takeWhile isJsSpace).isEmpty then none
    else some ((rest.dropWhile isJsSpace).takeWhile (fun c => !(c = '@' || isJsSpace c)))
  else none

/-- Does a `[\w.]` run have the shape `\w+(\.\w+)*`?  Checked via
`split('.')`: every dot-separated piece must be a nonempty word-character
run. -/
def validDottedId (run : List Char) : Bool :=
  !run.isEmpty && (splitOnChar '.' run).all (fun seg => !seg.isEmpty)

/-- Captures of `/^#:package\s+(\w+(?:\.\w+)*)@(.*)$/` on the line prefix,
when the regex matches: the package id and the version prefix. -/
def matchPackageVersion (line : List Char) : Option (List Char × List Char) :=
  if "#:package".data.isPrefixOf line then
    let rest := line.drop 9
    if (rest.takeWhile isJsSpace).isEmpty then none
    else
      let afterWs := rest.dropWhile isJsSpace
      let run := afterWs.takeWhile (fun c => isWordChar c || c = '.')
      if validDottedId run then
        if (afterWs.drop run.length).head? = some '@' then
          some (run, (afterWs.drop run.length).tail)
        else none
      else none
  else none

/-- The remote call a completion request issues (the `#:sdk`, `#:property`
and directive-name branches consult only static in-memory tables and never
reach the NuGet client, so they are `noCall` here). -/
inductive ClientCall
  | search (query : String)
  | versions (packageId : String) (versionPfx : String)
  | noCall
deriving Repr, DecidableEq

/-- The dispatch of `PackageCompletionProvider.provideCompletionItems` in
`src/extension.ts`:

```ts
const packageMatch = linePrefix.match(/^#:package\s+([^@\s]*)/);
const versionMatch = linePrefix.match(/^#:package\s+(\w+(?:\.\w+)*)@(.*)$/);
if (!packageMatch) { return []; }
if (versionMatch) {
  const [, packageId, versionPrefix] = versionMatch;
  return this.getVersionCompletions(packageId, versionPrefix);
}
const query = packageMatch[1] || "";
try {
  const packages = await this.searchPackages(query);
  ...
```

There is no emptiness check on `query` before `searchPackages`. -/
def resolveClientCallExt (linePfx : String) : ClientCall :=
  match matchPackageQuery linePfx.data with
  | none => .noCall
  | some q =>
    match matchPackageVersion linePfx.data with
    | some (pid, vp) => .versions ⟨pid⟩ ⟨vp⟩
    | none => .search ⟨q⟩

/-- The dispatch of `DirectiveCompletionProvider.provideCompletionItems` in
`src/unnamed/part_000`:

```ts
if (packageMatch) {
  if (packageVersionMatch) {
    const [, packageId, versionPrefix] = packageVersionMatch;
    return this.getVersionCompletions(packageId, versionPrefix);
  }
  return this.getPackageCompletions(packageMatch[1] || "");
}
if (sdkMatch) { return this.getSdkCompletions(sdkMatch[1]); }
if (propertyMatch) { ... }
const directivePrefix = linePrefix.match(/^#:(\w*)$/);
...
```

with

```ts
private async getPackageCompletions(query: string) {
  if (!query) { return []; }
  try {
    const packages = await this.searchPackages(query);
    ...
```

The `#:sdk`, `#:property` and bare-directive branches filter static tables
and issue no client call, so they collapse to `noCall`. -/
def resolveClientCallDirective (linePfx : String) : ClientCall :=
  match matchPackageQuery linePfx.data with
  | some q =>
    match matchPackageVersion linePfx.data with
    | some (pid, vp) => .versions ⟨pid⟩ ⟨vp⟩
    | none => if (⟨q⟩ : String) = "" then .noCall else .search ⟨q⟩
  | none => .noCall

/-! ### Hover providers

Both hover providers match the line against
`/^#:package\s+(\w+(?:\.\w+)*)@?([\d\.]*)/` (not `$`-anchored).  The id
capture is greedy — the initial `\w+` run, then repeatedly a dot followed
by a nonempty `\w+` run — and backtracking never shrinks it because the
rest of the pattern (`@?([\d\.]*)`) always matches. -/

/-- After the `\w+` run: greedily consume `(?:\.\w+)*`, returning the
consumed characters and the remainder.  `fuel` bounds the recursion by the
input length. -/
def takeDotSegs : Nat → List Char → List Char × List Char
  | 0, s => ([], s)
  | _ + 1, [] => ([], [])
  | fuel + 1, '.' :: t =>
    let w := t.takeWhile isWordChar
    if w.isEmpty then ([], '.' :: t)
    else
      let res := takeDotSegs fuel (t.dropWhile isWordChar)
      ('.' :: (w ++ res.1), res.2)
  | _ + 1, s => ([], s)

/-- Captures of `/^#:package\s+(\w+(?:\.\w+)*)@?([\d\.]*)/` on the full
line text, when the regex matches: the package id and the (possibly empty)
version capture. -/
def matchHoverPackage (line : List Char) : Option (List Char × List Char) :=
  if "#:package".data.isPrefixOf line then
    let rest := line.drop 9
    if (rest.takeWhile isJsSpace).isEmpty then none
    else
      let afterWs := rest.dropWhile isJsSpace
      let w := afterWs.takeWhile isWordChar
      if w.isEmpty then none
      else
        let res := takeDotSegs afterWs.length (afterWs.dropWhile isWordChar)
        let afterId := res.2
        let afterAt := if afterId.head? = some '@' then afterId.tail else afterId
        some (w ++ res.1, afterAt.takeWhile (fun c => c.isDigit || c = '.'))
  else none

/-- `packageId.split(".")[0]`. -/
def firstDotSegment (id : List Char) : List Char :=
  id.takeWhile (fun c => c ≠ '.')

/-- `PackageHoverProvider.provideHover` from `src/extension.ts`, as a
function of the line text, the word range under the cursor (`none` when
`getWordRangeAtPosition` returns `undefined`) and the remote lookup
outcome.  The produced value is the `packageData` record the hover renders
(`none` = no hover):

```ts
if (!packageMatch) { return undefined; }
const [, packageId, version] = packageMatch;
const wordRange = document.getWordRangeAtPosition(position);
if (
  !wordRange ||
  !line.text
    .substring(wordRange.start.character, wordRange.end.character)
    .includes(packageId.split(".")[0])
) {
  return undefined;
}
try {
  const response = await axios.get(...);
  const packageData = response.data.data[0];
  if (!packageData) { return undefined; }
  ... return new vscode.Hover(markdown, wordRange);
} catch (error) { ... return undefined; }
```
-/
def provideHoverExt (lineText : String) (wordRange : Option (Nat × Nat))
    (remote : RemoteResponse (List SearchResultItem)) : Option SearchResultItem :=
  match matchHoverPackage lineText.data with
  | none => none
  | some (packageId, _version) =>
    match wordRange with
    | none => none
    | some (s, e) =>
      if !listContainsSub (jsSubstring lineText.data s e) (firstDotSegment packageId) then
        none
      else
        match remote with
        | .failure => none
        | .success data => data.head?

/-- `DirectiveHoverProvider.getPackageHover` from `src/unnamed/part_000`
(reached from its `provideHover` when the package regex matches).  Unlike
`extension.ts`, the only word-range condition is `if (!wordRange) return
undefined;` — there is no containment check against the package id:

```ts
const [, packageId, version] = match;
const wordRange = document.getWordRangeAtPosition(position);
if (!wordRange) { return undefined; }
try {
  const response = await axios.get(...);
  const packageData = response.data.data[0];
  if (!packageData) { return undefined; }
  ... return new vscode.Hover(markdown, wordRange);
} catch (error) { ... return undefined; }
```
-/
def getPackageHoverDirective (lineText : String) (wordRange : Option (Nat × Nat))
    (remote : RemoteResponse (List SearchResultItem)) : Option SearchResultItem :=
  match matchHoverPackage lineText.data with
  | none => none
  | some (_packageId, _version) =>
    match wordRange with
    | none => none
    | some (_s, _e) =>
      match remote with
      | .failure => none
      | .success data => data.head?

/-! ### The reference comparator of the specification

§4.1 of the specification: "Comparison proceeds segment-by-segment from the
most significant; the first unequal pair of segments decides the result; a
segment absent in one operand contributes 0." -/

/-- Comparison of exhausted-left against remaining-right segments: the left
operand supplies `0` for every position, so the right operand is greater
exactly when it still holds a nonzero segment. -/
def specCompareZeros : List Nat → Ordering
  | [] => .eq
  | b :: bs => if b ≠ 0 then .lt else specCompareZeros bs

/-- The reference segment comparison, written from the specification's
words (not from the source): walk the two segment lists in parallel, an
exhausted list supplies `0`, and the first unequal pair decides. -/
def specCompareSegments : List Nat → List Nat → Ordering
  | [], bs => specCompareZeros bs
  | a :: as, [] => if a ≠ 0 then .gt else specCompareSegments as []
  | a :: as, b :: bs =>
    if a ≠ b then (if a < b then .lt else .gt) else specCompareSegments as bs

/-- The sign of an integer as an `Ordering` (for comparing the source's
integer-valued comparator with the reference). -/
def intSign (n : Int) : Ordering :=
  if n < 0 then .lt else if n = 0 then .eq else .gt

/-! ### Decimal digit strings (for reasoning about `sortText`) -/

/-- The decimal digit characters of `n`, most significant first; mirrors the
recursion of `Nat.toDigitsCore` (which underlies `Nat.repr`). -/
def digitChars (n : Nat) : List Char :=
  if n < 10 then [Nat.digitChar n]
  else digitChars (n / 10) ++ [Nat.digitChar (n % 10)]
decreasing_by exact Nat.div_lt_self (by omega) (by omega)

/-- The `k` decimal digits of `n` (as numbers), most significant first,
zero-padded to width `k`; the canonical form used to compare padded decimal
strings. -/
def digitListMSD : Nat → Nat → List Nat
  | 0, _ => []
  | k + 1, n => n / 10 ^ k :: digitListMSD k (n % 10 ^ k)

/-! ### Sanity checks on concrete inputs -/

example : compareVersions "2.1" "2.1.0" = 0 := by decide

example : compareVersions "1.2.3" "1.10.0" < 0 := by decide

example : compareVersions "1.10.0" "1.2.3" = 8 := by decide

example : isDottedNat "1.10.0" = true := by decide

example : isDottedNat "1.0.0-beta" = false := by decide

example :
    (createPackageCompletionItem
      { id := "Humanizer", version := "2.14.1", description := none,
        totalDownloads := some 500000000 }).insertText = "Humanizer@2.14.1" := by
  decide

example :
    (createPackageCompletionItem
      { id := "Humanizer", version := "2.14.1", description := none,
        totalDownloads := some 500000000 }).sortText = "0499999999" := by
  decide

example :
    filterSortVersions ["1.0.0", "1.0.0-beta", "1.1.0", "2.0.0"] "1" =
      ["1.1.0", "1.0.0"] := by decide

example : resolveClientCallExt "#:package " = .search "" := by decide

example : resolveClientCallDirective "#:package " = .noCall := by decide

example : resolveClientCallExt "#:package Hum" = .search "Hum" := by decide

example : resolveClientCallDirective "#:package Hum" = .search "Hum" := by decide

example : resolveClientCallDirective "#:package Newtonsoft.Json@13" =
    .versions "Newtonsoft.Json" "13" := by decide

example : resolveClientCallDirective "#:sdk Micro" = .noCall := by decide

example : matchHoverPackage "#:package Humanizer@2.14.1".data =
    some ("Humanizer".data, "2.14.1".data) := by decide

example : matchHoverPackage "#:package Newtonsoft.Json@13.0.3".data =
    some ("Newtonsoft.Json".data, "13.0.3".data) := by decide

example : specCompareSegments [2, 1] [2, 1, 0] = .eq := by decide

example : specCompareSegments [1, 2, 3] [1, 10, 0] = .lt := by decide

/-! ### Lemmas about the comparator loop -/

theorem comparePartsLoop_succ (pa pb : List Nat) (i f : Nat) :
    comparePartsLoop pa pb i (f + 1) =
      if pa.getD i 0 ≠ pb.getD i 0 then ((pa.getD i 0 : Int) - (pb.getD i 0 : Int))
      else comparePartsLoop pa pb (i + 1) f := rfl

theorem getD_succ_tail (l : List Nat) (i : Nat) :
    l.getD (i + 1) 0 = l.tail.getD i 0 := by
  cases l <;> simp [List.getD]

theorem comparePartsLoop_shift (fuel : Nat) :
    ∀ (pa pb : List Nat) (i : Nat),
      comparePartsLoop pa pb (i + 1) fuel = comparePartsLoop pa.tail pb.tail i fuel := by
  induction fuel with
  | zero => intro pa pb i; rfl
  | succ f ih =>
    intro pa pb i
    rw [comparePartsLoop_succ, comparePartsLoop_succ, getD_succ_tail pa, getD_succ_tail pb]
    by_cases h : pa.tail.getD i 0 = pb.tail.getD i 0
    · rw [if_neg (not_not_intro h), if_neg (not_not_intro h)]
      exact ih pa pb (i + 1)
    · rw [if_pos h, if_pos h]

theorem comparePartsLoop_neg (fuel : Nat) :
    ∀ (pa pb : List Nat) (i : Nat),
      comparePartsLoop pa pb i fuel = -comparePartsLoop pb pa i fuel := by
  induction fuel with
  | zero => intro pa pb i; rfl
  | succ f ih =>
    intro pa pb i
    rw [comparePartsLoop_succ, comparePartsLoop_succ]
    by_cases h : pa.getD i 0 = pb.getD i 0
    · rw [if_neg (not_not_intro h), if_neg (not_not_intro h.symm)]
      exact ih pa pb (i + 1)
    · rw [if_pos h, if_pos (Ne.symm h)]
      omega

theorem comparePartsLoop_self (fuel : Nat) :
    ∀ (pa : List Nat) (i : Nat), comparePartsLoop pa pa i fuel = 0 := by
  induction fuel with
  | zero => intro pa i; rfl
  | succ f ih =>
    intro pa i
    rw [comparePartsLoop_succ, if_neg (not_not_intro rfl)]
    exact ih pa (i + 1)

theorem compareVersions_antisymm (a b : String) :
    compareVersions a b = -compareVersions b a := by
  show comparePartsLoop _ _ 0 _ = -comparePartsLoop _ _ 0 _
  rw [Nat.max_comm ((jsSplit b '.').map segValue).length ((jsSplit a '.').map segValue).length]
  exact comparePartsLoop_neg _ _ _ _

theorem compareVersions_self (a : String) : compareVersions a a = 0 :=
  comparePartsLoop_self _ _ _

/-! ### Sign lemmas for `intSign` -/

theorem intSign_eq_lt {n : Int} : intSign n = .lt ↔ n < 0 := by
  unfold intSign
  by_cases h : n < 0
  · simp [h]
  · by_cases h2 : n = 0 <;> simp [h, h2]

theorem intSign_eq_eq {n : Int} : intSign n = .eq ↔ n = 0 := by
  unfold intSign
  by_cases h : n < 0
  · simp [h]; omega
  · by_cases h2 : n = 0 <;> simp [h, h2]

theorem intSign_eq_gt {n : Int} : intSign n = .gt ↔ 0 < n := by
  unfold intSign
  by_cases h : n < 0
  · simp [h]; omega
  · by_cases h2 : n = 0
    · simp [h, h2]
    · simp [h, h2]; omega

/-! ### Correspondence between the loop and the reference comparison -/

theorem compareZeros_loop :
    ∀ bs : List Nat, intSign (comparePartsLoop [] bs 0 bs.length) = specCompareZeros bs := by
  intro bs
  induction bs with
  | nil => decide
  | cons b bs ih =>
    show intSign (comparePartsLoop [] (b :: bs) 0 (bs.length + 1)) = _
    rw [comparePartsLoop_succ]
    simp only [List.getD_nil, List.getD_cons_zero]
    by_cases h : b = 0
    · subst h
      rw [if_neg (not_not_intro rfl), comparePartsLoop_shift]
      simpa [specCompareZeros] using ih
    · rw [if_pos (fun hh => h hh.symm)]
      have hlt : ((0 : Nat) : Int) - (b : Int) < 0 := by omega
      rw [intSign_eq_lt.mpr hlt]
      simp [specCompareZeros, h]

theorem loop_eq_specCompare :
    ∀ (pa pb : List Nat),
      intSign (comparePartsLoop pa pb 0 (max pa.length pb.length)) =
        specCompareSegments pa pb := by
  intro pa
  induction pa with
  | nil =>
    intro pb
    have hm : max ([] : List Nat).length pb.length = pb.length := by simp
    rw [hm]
    exact compareZeros_loop pb
  | cons a as ih =>
    intro pb
    cases pb with
    | nil =>
      have hm : max (a :: as).length ([] : List Nat).length = as.length + 1 := by simp
      rw [hm, comparePartsLoop_succ]
      simp only [List.getD_cons_zero, List.getD_nil]
      by_cases h : a = 0
      · subst h
        rw [if_neg (not_not_intro rfl), comparePartsLoop_shift]
        have := ih []
        have hm' : max as.length ([] : List Nat).length = as.length := by simp
        rw [hm'] at this
        simpa [specCompareSegments] using this
      · rw [if_pos h]
        have hgt : (0 : Int) < (a : Int) - ((0 : Nat) : Int) := by omega
        rw [intSign_eq_gt.mpr hgt]
        simp [specCompareSegments, h]
    | cons b bs =>
      have hm : max (a :: as).length (b :: bs).length = max as.length bs.length + 1 := by
        simp [Nat.succ_max_succ]
      rw [hm, comparePartsLoop_succ]
      simp only [List.getD_cons_zero]
      by_cases h : a = b
      · subst h
        rw [if_neg (not_not_intro rfl), comparePartsLoop_shift]
        simpa [specCompareSegments] using ih bs
      · rw [if_pos h]
        simp only [specCompareSegments, if_pos h]
        by_cases hlt : a < b
        · rw [if_pos hlt, intSign_eq_lt.mpr (by omega : (a : Int) - (b : Int) < 0)]
        · rw [if_neg hlt, intSign_eq_gt.mpr (by omega : (0 : Int) < (a : Int) - (b : Int))]

theorem compareVersions_spec (a b : String) :
    intSign (compareVersions a b) =
      specCompareSegments (versionSegments a) (versionSegments b) :=
  loop_eq_specCompare _ _

/-! ### Order-theoretic properties of the reference comparison -/

theorem specCompareZeros_replicate (k : Nat) :
    specCompareZeros (List.replicate k 0) = .eq := by
  induction k with
  | zero => rfl
  | succ k ih => simpa [specCompareZeros] using ih

theorem specCompareZeros_append_zeros (pb : List Nat) (k : Nat) :
    specCompareZeros (pb ++ List.replicate k 0) = specCompareZeros pb := by
  induction pb with
  | nil => simpa using specCompareZeros_replicate k
  | cons b bs ih => by_cases h : b = 0 <;> simp [specCompareZeros, h, ih]

theorem spec_append_zeros_right :
    ∀ (pa pb : List Nat) (k : Nat),
      specCompareSegments pa (pb ++ List.replicate k 0) = specCompareSegments pa pb := by
  intro pa
  induction pa with
  | nil =>
    intro pb k
    show specCompareZeros _ = specCompareZeros _
    exact specCompareZeros_append_zeros pb k
  | cons a as ih =>
    intro pb k
    cases pb with
    | nil =>
      cases k with
      | zero => rfl
      | succ k =>
        show specCompareSegments (a :: as) (0 :: List.replicate k 0) = _
        by_cases h : a = 0
        · subst h
          simpa [specCompareSegments] using ih [] k
        · simp [specCompareSegments, h]
    | cons b bs =>
      by_cases h : a = b <;> simp [specCompareSegments, h, ih bs k]

theorem spec_nil_right_swap (pb : List Nat) :
    specCompareSegments pb [] = (specCompareZeros pb).swap := by
  induction pb with
  | nil => rfl
  | cons b bs ih =>
    by_cases h : b = 0 <;> simp [specCompareSegments, specCompareZeros, h, ih, Ordering.swap]

theorem spec_swap :
    ∀ (pa pb : List Nat),
      specCompareSegments pa pb = (specCompareSegments pb pa).swap := by
  intro pa
  induction pa with
  | nil =>
    intro pb
    show specCompareZeros pb = (specCompareSegments pb []).swap
    rw [spec_nil_right_swap, Ordering.swap_swap]
  | cons a as ih =>
    intro pb
    cases pb with
    | nil => exact spec_nil_right_swap (a :: as)
    | cons b bs =>
      by_cases h : a = b
      · subst h
        simpa [specCompareSegments] using ih bs
      · have h' : ¬b = a := fun hh => h hh.symm
        by_cases hlt : a < b
        · have : ¬b < a := by omega
          simp [specCompareSegments, h, h', hlt, this, Ordering.swap]
        · have : b < a := by omega
          simp [specCompareSegments, h, h', hlt, this, Ordering.swap]

theorem spec_append_zeros_left (pa pb : List Nat) (k : Nat) :
    specCompareSegments (pa ++ List.replicate k 0) pb = specCompareSegments pa pb := by
  rw [spec_swap, spec_append_zeros_right, ← spec_swap]

theorem spec_trans_eqlen :
    ∀ (pa pb pc : List Nat), pa.length = pb.length → pb.length = pc.length →
      specCompareSegments pa pb ≠ .gt → specCompareSegments pb pc ≠ .gt →
      specCompareSegments pa pc ≠ .gt := by
  intro pa
  induction pa with
  | nil =>
    intro pb pc hab hbc h1 h2
    cases pb with
    | nil => exact h2
    | cons b bs => simp at hab
  | cons a as ih =>
    intro pb pc hab hbc h1 h2
    cases pb with
    | nil => simp at hab
    | cons b bs =>
      cases pc with
      | nil => simp at hbc
      | cons c cs =>
        simp only [List.length_cons, Nat.add_right_cancel_iff] at hab hbc
        by_cases h1ab : a = b
        · subst h1ab
          by_cases h2bc : a = c
          · subst h2bc
            have h1' : specCompareSegments as bs ≠ .gt := by
              simpa [specCompareSegments] using h1
            have h2' : specCompareSegments bs cs ≠ .gt := by
              simpa [specCompareSegments] using h2
            simpa [specCompareSegments] using ih bs cs hab hbc h1' h2'
          · have hlt : a < c := by
              by_contra hcon
              have hnl : ¬a < c := hcon
              have : specCompareSegments (a :: bs) (c :: cs) = .gt := by
                simp [specCompareSegments, h2bc, hnl]
              exact h2 this
            simp [specCompareSegments, h2bc, hlt]
        · have hab' : a < b := by
            by_contra hcon
            have hnl : ¬a < b := hcon
            have : specCompareSegments (a :: as) (b :: bs) = .gt := by
              simp [specCompareSegments, h1ab, hnl]
            exact h1 this
          by_cases h2bc : b = c
          · subst h2bc
            simp [specCompareSegments, h1ab, hab']
          · have hbc' : b < c := by
              by_contra hcon
              have hnl : ¬b < c := hcon
              have : specCompareSegments (b :: bs) (c :: cs) = .gt := by
                simp [specCompareSegments, h2bc, hnl]
              exact h2 this
            have hac : a ≠ c := by omega
            have haclt : a < c := by omega
            simp [specCompareSegments, hac, haclt]

theorem intSign_ne_gt {n : Int} : intSign n ≠ .gt ↔ n ≤ 0 := by
  rw [Ne, intSign_eq_gt]; omega

theorem compareVersions_nonpos_iff (a b : String) :
    compareVersions a b ≤ 0 ↔
      specCompareSegments (versionSegments a) (versionSegments b) ≠ .gt := by
  rw [← compareVersions_spec]
  exact intSign_ne_gt.symm

theorem spec_ne_gt_trans (pa pb pc : List Nat) :
    specCompareSegments pa pb ≠ .gt → specCompareSegments pb pc ≠ .gt →
      specCompareSegments pa pc ≠ .gt := by
  intro h1 h2
  have key : ∀ (x y : List Nat) (n : Nat),
      specCompareSegments (x ++ List.replicate (n - x.length) 0)
        (y ++ List.replicate (n - y.length) 0) = specCompareSegments x y := by
    intro x y n
    rw [spec_append_zeros_left, spec_append_zeros_right]
  have hlen : ∀ (x : List Nat) (n : Nat), x.length ≤ n →
      (x ++ List.replicate (n - x.length) 0).length = n := by
    intro x n hx
    simp only [List.length_append, List.length_replicate]
    omega
  set n := max (max pa.length pb.length) pc.length with hn
  have ha := hlen pa n (by omega)
  have hb := hlen pb n (by omega)
  have hc := hlen pc n (by omega)
  rw [← key pa pc n]
  exact spec_trans_eqlen (pa ++ List.replicate (n - pa.length) 0)
    (pb ++ List.replicate (n - pb.length) 0)
    (pc ++ List.replicate (n - pc.length) 0)
    (ha.trans hb.symm) (hb.trans hc.symm)
    (by rw [key]; exact h1) (by rw [key]; exact h2)

theorem versionSortLe_trans (x y z : String) :
    versionSortLe x y = true → versionSortLe y z = true → versionSortLe x z = true := by
  simp only [versionSortLe, decide_eq_true_eq]
  intro h1 h2
  rw [compareVersions_nonpos_iff] at h1 h2 ⊢
  exact spec_ne_gt_trans _ _ _ h2 h1

theorem versionSortLe_total (x y : String) :
    (versionSortLe x y || versionSortLe y x) = true := by
  have h := compareVersions_antisymm x y
  simp only [versionSortLe, Bool.or_eq_true, decide_eq_true_eq]
  omega

/-! ### The stable sort: permutation and sortedness -/

theorem stableInsert_perm (le : α → α → Bool) (x : α) (l : List α) :
    List.Perm (stableInsert le x l) (x :: l) := by
  induction l with
  | nil => exact List.Perm.refl _
  | cons y l ih =>
    by_cases h : le x y = true
    · rw [stableInsert, if_pos h]
    · rw [stableInsert, if_neg h]
      exact (ih.cons y).trans (List.Perm.swap x y l)

theorem stableSort_perm (le : α → α → Bool) (l : List α) :
    List.Perm (stableSort le l) l := by
  induction l with
  | nil => exact List.Perm.refl _
  | cons x l ih =>
    exact (stableInsert_perm le x (stableSort le l)).trans (ih.cons x)

theorem stableInsert_pairwise (le : α → α → Bool)
    (htr : ∀ a b c, le a b = true → le b c = true → le a c = true)
    (hto : ∀ a b, (le a b || le b a) = true)
    (x : α) (l : List α) (h : l.Pairwise (fun a b => le a b = true)) :
    (stableInsert le x l).Pairwise (fun a b => le a b = true) := by
  induction l with
  | nil => simp [stableInsert]
  | cons y l ih =>
    rcases List.pairwise_cons.mp h with ⟨hy, hl⟩
    by_cases hxy : le x y = true
    · rw [stableInsert, if_pos hxy]
      refine List.pairwise_cons.mpr ⟨?_, h⟩
      intro z hz
      rcases List.mem_cons.mp hz with rfl | hz
      · exact hxy
      · exact htr x y z hxy (hy z hz)
    · rw [stableInsert, if_neg hxy]
      refine List.pairwise_cons.mpr ⟨?_, ih hl⟩
      intro z hz
      rcases List.mem_cons.mp ((stableInsert_perm le x l).mem_iff.mp hz) with hzx | hz
      · subst hzx
        have := hto z y
        simpa [hxy] using this
      · exact hy z hz

theorem stableSort_pairwise (le : α → α → Bool)
    (htr : ∀ a b c, le a b = true → le b c = true → le a c = true)
    (hto : ∀ a b, (le a b || le b a) = true) (l : List α) :
    (stableSort le l).Pairwise (fun a b => le a b = true) := by
  induction l with
  | nil => simp [stableSort]
  | cons x l ih => exact stableInsert_pairwise le htr hto x _ ih

/-! ### Decimal representation lemmas -/

theorem toDigitsCore_eq_digitChars :
    ∀ (fuel n : Nat) (acc : List Char), n < fuel →
      Nat.toDigitsCore 10 fuel n acc = digitChars n ++ acc := by
  intro fuel
  induction fuel with
  | zero => intro n acc h; omega
  | succ f ih =>
    intro n acc h
    show (if n / 10 = 0 then Nat.digitChar (n % 10) :: acc
          else Nat.toDigitsCore 10 f (n / 10) (Nat.digitChar (n % 10) :: acc)) = _
    by_cases hd : n / 10 = 0
    · have hn : n < 10 := by omega
      rw [if_pos hd, digitChars, if_pos hn, Nat.mod_eq_of_lt hn]
      rfl
    · have hn : ¬n < 10 := by omega
      have hlt : n / 10 < f := by
        have := Nat.div_lt_self (by omega : 0 < n) (by omega : 1 < 10)
        omega
      rw [if_neg hd, ih (n / 10) _ hlt]
      conv_rhs => rw [digitChars]
      rw [if_neg hn, List.append_assoc]
      rfl

theorem natRepr_data (n : Nat) : (Nat.repr n).data = digitChars n := by
  show (Nat.toDigits 10 n).asString.data = digitChars n
  show (Nat.toDigitsCore 10 (n + 1) n []).asString.data = digitChars n
  rw [toDigitsCore_eq_digitChars (n + 1) n [] (by omega)]
  simp [List.asString]

theorem digitListMSD_zero (k : Nat) : digitListMSD k 0 = List.replicate k 0 := by
  induction k with
  | zero => rfl
  | succ k ih => simp [digitListMSD, ih, List.replicate_succ]

theorem digitListMSD_succ_bottom :
    ∀ (k n : Nat), n < 10 ^ (k + 1) →
      digitListMSD (k + 1) n = digitListMSD k (n / 10) ++ [n % 10] := by
  intro k
  induction k with
  | zero =>
    intro n hn
    have : n % 10 = n := Nat.mod_eq_of_lt (by simpa using hn)
    simp [digitListMSD, this, Nat.div_eq_of_lt (by simpa using hn)]
  | succ k ih =>
    intro n hn
    have hmod : n % 10 ^ (k + 1) < 10 ^ (k + 1) := Nat.mod_lt _ (by positivity)
    have h1 : n / 10 ^ (k + 1) = n / 10 / 10 ^ k := by
      rw [Nat.div_div_eq_div_mul]
      ring_nf
    have h2 : n % 10 ^ (k + 1) / 10 = n / 10 % 10 ^ k := by
      have : (10 : Nat) ^ (k + 1) = 10 * 10 ^ k := by ring
      rw [this, Nat.mod_mul_right_div_self]
    have h3 : n % 10 ^ (k + 1) % 10 = n % 10 := by
      apply Nat.mod_mod_of_dvd
      exact ⟨10 ^ k, by ring⟩
    show n / 10 ^ (k + 1) :: digitListMSD (k + 1) (n % 10 ^ (k + 1)) = _
    rw [ih (n % 10 ^ (k + 1)) hmod, h1, h2, h3]
    show _ = n / 10 / 10 ^ k :: digitListMSD k (n / 10 % 10 ^ k) ++ [n % 10]
    simp

theorem padded_digitChars_eq_digitListMSD :
    ∀ (k n : Nat), n < 10 ^ (k + 1) →
      List.replicate ((k + 1) - (digitChars n).length) '0' ++ digitChars n =
        (digitListMSD (k + 1) n).map Nat.digitChar := by
  intro k
  induction k with
  | zero =>
    intro n hn
    have hn10 : n < 10 := by simpa using hn
    rw [digitChars, if_pos hn10]
    simp [digitListMSD, Nat.div_eq_of_lt hn10, Nat.mod_eq_of_lt hn10]
  | succ k ih =>
    intro n hn
    rw [digitListMSD_succ_bottom (k + 1) n hn]
    by_cases h10 : n < 10
    · rw [digitChars, if_pos h10]
      have : n / 10 = 0 := Nat.div_eq_of_lt h10
      rw [this, digitListMSD_zero, Nat.mod_eq_of_lt h10]
      simp [List.map_replicate]
      rfl
    · rw [digitChars, if_neg h10]
      have hdiv : n / 10 < 10 ^ (k + 1) := by
        rw [Nat.div_lt_iff_lt_mul (by omega : 0 < 10)]
        calc n < 10 ^ (k + 2) := hn
        _ = 10 ^ (k + 1) * 10 := by ring
      have := ih (n / 10) hdiv
      rw [List.map_append, ← this]
      simp only [List.length_append, List.length_singleton]
      have harith : (k + 1 + 1) - ((digitChars (n / 10)).length + 1) =
          (k + 1) - (digitChars (n / 10)).length := by omega
      rw [harith, List.append_assoc]
      simp

theorem digitChar_strictMono :
    ∀ x, x < 10 → ∀ y, y < 10 → x < y → Nat.digitChar x < Nat.digitChar y := by
  decide

theorem charListLt_head {a b : Char} (as bs : List Char) (h : a < b) :
    charListLt (a :: as) (b :: bs) = true := by
  simp [charListLt, h]

theorem charListLt_tail (a : Char) (as bs : List Char) (h : charListLt as bs = true) :
    charListLt (a :: as) (a :: bs) = true := by
  simp [charListLt, lt_irrefl a, h]

theorem digitListMSD_lex_lt :
    ∀ (k a b : Nat), a < b → b < 10 ^ k →
      charListLt ((digitListMSD k a).map Nat.digitChar)
        ((digitListMSD k b).map Nat.digitChar) = true := by
  intro k
  induction k with
  | zero => intro a b hab hb; simp at hb; omega
  | succ k ih =>
    intro a b hab hb
    have hda : a / 10 ^ k < 10 := by
      rw [Nat.div_lt_iff_lt_mul (by positivity)]
      calc a < b := hab
      _ < 10 ^ (k + 1) := hb
      _ = 10 * 10 ^ k := by ring
    have hdb : b / 10 ^ k < 10 := by
      rw [Nat.div_lt_iff_lt_mul (by positivity)]
      calc b < 10 ^ (k + 1) := hb
      _ = 10 * 10 ^ k := by ring
    show charListLt
        (Nat.digitChar (a / 10 ^ k) :: (digitListMSD k (a % 10 ^ k)).map Nat.digitChar)
        (Nat.digitChar (b / 10 ^ k) :: (digitListMSD k (b % 10 ^ k)).map Nat.digitChar) = true
    by_cases hd : a / 10 ^ k < b / 10 ^ k
    · exact charListLt_head _ _ (digitChar_strictMono _ hda _ hdb hd)
    · have hde : a / 10 ^ k = b / 10 ^ k := by
        have := Nat.div_le_div_right (c := 10 ^ k) (Nat.le_of_lt hab)
        omega
      have hmlt : a % 10 ^ k < b % 10 ^ k := by
        have ha' := Nat.div_add_mod a (10 ^ k)
        have hb' := Nat.div_add_mod b (10 ^ k)
        have hde' : 10 ^ k * (a / 10 ^ k) = 10 ^ k * (b / 10 ^ k) := by rw [hde]
        omega
      have hmb : b % 10 ^ k < 10 ^ k := Nat.mod_lt _ (by positivity)
      rw [hde]
      exact charListLt_tail _ _ _ (ih _ _ hmlt hmb)

/-! ### `sortText` ordering lemmas -/

theorem jsPad_data (d : Nat) (hd : d ≤ 999999999) :
    (jsPadStart (jsNumToString ((999999999 : Int) - (d : Nat))) 10 '0').data =
      (digitListMSD 10 (999999999 - d)).map Nat.digitChar := by
  have hv : (999999999 : Int) - (d : Nat) = ((999999999 - d : Nat) : Int) := by omega
  rw [hv]
  unfold jsNumToString
  rw [if_neg (by omega : ¬(((999999999 - d : Nat) : Int) < 0)), Int.toNat_natCast]
  show List.replicate (10 - (Nat.repr (999999999 - d)).data.length) '0' ++
      (Nat.repr (999999999 - d)).data = _
  rw [natRepr_data]
  exact padded_digitChars_eq_digitListMSD 9 (999999999 - d)
    (by calc 999999999 - d ≤ 999999999 := Nat.sub_le _ _
        _ < 10 ^ 10 := by norm_num)

theorem sortText_string_lt (d₁ d₂ : Nat) (h12 : d₁ < d₂) (hb : d₂ ≤ 999999999) :
    charListLt (jsPadStart (jsNumToString ((999999999 : Int) - (d₂ : Nat))) 10 '0').data
      (jsPadStart (jsNumToString ((999999999 : Int) - (d₁ : Nat))) 10 '0').data = true := by
  rw [jsPad_data d₂ hb, jsPad_data d₁ (by omega)]
  exact digitListMSD_lex_lt 10 (999999999 - d₂) (999999999 - d₁) (by omega)
    (by calc 999999999 - d₁ ≤ 999999999 := Nat.sub_le _ _
        _ < 10 ^ 10 := by norm_num)

theorem sortText_lt_nines (d : Nat) (h1 : 1 ≤ d) (hb : d ≤ 999999999) :
    charListLt (jsPadStart (jsNumToString ((999999999 : Int) - (d : Nat))) 10 '0').data
      ("9999999999" : String).data = true := by
  rw [jsPad_data d hb]
  have hv : 999999999 - d < 10 ^ 9 := by
    have h : 999999999 - d ≤ 999999998 := by omega
    calc 999999999 - d ≤ 999999998 := h
    _ < 10 ^ 9 := by norm_num
  show charListLt
      (Nat.digitChar ((999999999 - d) / 10 ^ 9) ::
        (digitListMSD 9 ((999999999 - d) % 10 ^ 9)).map Nat.digitChar)
      (['9', '9', '9', '9', '9', '9', '9', '9', '9', '9'] : List Char) = true
  rw [Nat.div_eq_of_lt hv]
  exact charListLt_head _ _ (by decide)

/-! ### Behavioural lemmas for `searchPackages` -/

theorem searchPackages_cacheHit (st : ProviderState) (now : Nat) (q : String)
    (remote : RemoteResponse (List SearchResultItem))
    (hv : cacheValid st now (jsToLower q) = true) :
    searchPackages st now q remote =
      ((st.packageCache (jsToLower q)).getD [], st, false) := by
  simp [searchPackages, hv]

theorem searchPackages_fetch_success (st : ProviderState) (now : Nat) (q : String)
    (data : List SearchResultItem)
    (hv : cacheValid st now (jsToLower q) = false) :
    searchPackages st now q (.success data) =
      (data.map toPackage,
       { packageCache := fun k =>
           if k = jsToLower q then some (data.map toPackage) else st.packageCache k
         cacheExpiry := fun k =>
           if k = jsToLower q then some (now + CACHE_DURATION) else st.cacheExpiry k },
       true) := by
  simp [searchPackages, hv]

theorem searchPackages_fetch_failure (st : ProviderState) (now : Nat) (q : String)
    (hv : cacheValid st now (jsToLower q) = false) :
    searchPackages st now q .failure = ([], st, true) := by
  simp [searchPackages, hv]

theorem cacheValid_false_of_flag (st : ProviderState) (now : Nat) (q : String)
    (remote : RemoteResponse (List SearchResultItem))
    (h : (searchPackages st now q remote).2.2 = true) :
    cacheValid st now (jsToLower q) = false := by
  by_contra hv
  have hv' : cacheValid st now (jsToLower q) = true := by
    simpa using hv
  rw [searchPackages_cacheHit st now q remote hv'] at h
  simp at h

theorem searchPackages_flag_of_miss (st : ProviderState) (now : Nat) (q : String)
    (remote : RemoteResponse (List SearchResultItem))
    (hv : cacheValid st now (jsToLower q) = false) :
    (searchPackages st now q remote).2.2 = true := by
  cases remote with
  | success data => rw [searchPackages_fetch_success st now q data hv]
  | failure => rw [searchPackages_fetch_failure st now q hv]

theorem cacheValid_mono_false (st : ProviderState) (now now₂ : Nat) (k : String)
    (h : cacheValid st now k = false) (hle : now ≤ now₂) :
    cacheValid st now₂ k = false := by
  unfold cacheValid at *
  cases hpc : st.packageCache k <;> cases hce : st.cacheExpiry k <;>
    simp [hpc, hce] at * <;> omega

/-- Claim C1: a successful fetch stores the results under the lowercased
query with expiry `now + 5 minutes`; a second `searchPackages` for the same
query strictly before that expiry returns exactly the stored sequence from
the cache, leaves the state untouched and issues no remote request; at or
after the expiry the entry is treated as absent, the query is refetched and
the entry overwritten. -/
theorem claim_c1_cache_window (st : ProviderState) (now₁ now₂ : Nat) (q : String)
    (items items₂ : List SearchResultItem)
    (remote₂ : RemoteResponse (List SearchResultItem))
    (hfetch : (searchPackages st now₁ q (.success items)).2.2 = true) :
    (searchPackages st now₁ q (.success items)).2.1.cacheExpiry (jsToLower q) =
      some (now₁ + CACHE_DURATION) ∧
    (now₂ < now₁ + CACHE_DURATION →
      searchPackages (searchPackages st now₁ q (.success items)).2.1 now₂ q remote₂ =
        ((searchPackages st now₁ q (.success items)).1,
         (searchPackages st now₁ q (.success items)).2.1, false)) ∧
    (now₁ + CACHE_DURATION ≤ now₂ →
      (searchPackages (searchPackages st now₁ q (.success items)).2.1 now₂ q
          (.success items₂)).2.2 = true ∧
      (searchPackages (searchPackages st now₁ q (.success items)).2.1 now₂ q
          (.success items₂)).2.1.packageCache (jsToLower q) = some (items₂.map toPackage) ∧
      (searchPackages (searchPackages st now₁ q (.success items)).2.1 now₂ q
          (.success items₂)).2.1.cacheExpiry (jsToLower q) = some (now₂ + CACHE_DURATION)) := by
  have hv := cacheValid_false_of_flag st now₁ q (.success items) hfetch
  have hres : (searchPackages st now₁ q (.success items)).1 = items.map toPackage := by
    rw [searchPackages_fetch_success st now₁ q items hv]
  have hpc : (searchPackages st now₁ q (.success items)).2.1.packageCache (jsToLower q) =
      some (items.map toPackage) := by
    rw [searchPackages_fetch_success st now₁ q items hv]
    simp
  have hce : (searchPackages st now₁ q (.success items)).2.1.cacheExpiry (jsToLower q) =
      some (now₁ + CACHE_DURATION) := by
    rw [searchPackages_fetch_success st now₁ q items hv]
    simp
  refine ⟨hce, ?_, ?_⟩
  · intro h2
    have hv2 : cacheValid (searchPackages st now₁ q (.success items)).2.1 now₂
        (jsToLower q) = true := by
      simp only [cacheValid, hpc, hce]
      simp
      omega
    rw [searchPackages_cacheHit _ now₂ q remote₂ hv2, hpc, hres]
    simp
  · intro h3
    have hv3 : cacheValid (searchPackages st now₁ q (.success items)).2.1 now₂
        (jsToLower q) = false := by
      simp only [cacheValid, hpc, hce]
      simp
      omega
    rw [searchPackages_fetch_success _ now₂ q items₂ hv3]
    refine ⟨rfl, ?_, ?_⟩ <;> simp

/-- Claim C2: when the remote search fails (transport error, timeout or
malformed response) on a cache miss, `searchPackages` returns the empty
sequence without raising (the embedding is a total function), leaves the
provider state — and hence the cache entry for the query's key — unchanged,
and any later identical query issues the network request again. -/
theorem claim_c2_failure_isolation (st : ProviderState) (now : Nat) (q : String)
    (hmiss : cacheValid st now (jsToLower q) = false) :
    searchPackages st now q .failure = ([], st, true) ∧
    (∀ (now₂ : Nat) (remote₂ : RemoteResponse (List SearchResultItem)), now ≤ now₂ →
      (searchPackages st now₂ q remote₂).2.2 = true) := by
  refine ⟨searchPackages_fetch_failure st now q hmiss, ?_⟩
  intro now₂ remote₂ hle
  exact searchPackages_flag_of_miss st now₂ q remote₂
    (cacheValid_mono_false st now now₂ (jsToLower q) hmiss hle)

/-- Claim C6: `searchPackages` consults and updates the cache only through
the lowercased query, so two queries with the same lowercasing — in
particular two queries differing only in letter case, such as `"ABC"` and
`"abc"` — observe and update the same cache entry: the whole call behaves
identically. -/
theorem claim_c6_cache_key_case (st : ProviderState) (now : Nat) (q₁ q₂ : String)
    (remote : RemoteResponse (List SearchResultItem))
    (h : jsToLower q₁ = jsToLower q₂) :
    searchPackages st now q₁ remote = searchPackages st now q₂ remote := by
  simp only [searchPackages, h]

/-- Claim C10: a successful search returning zero results populates the
cache for the normalized query with the empty sequence and expiry
`now + 5 minutes`; an identical query within that window returns the empty
sequence from the cache without issuing a request — unlike a failure, which
leaves the provider state (and so the key) untouched. -/
theorem claim_c10_empty_result_cached (st : ProviderState) (now : Nat) (q : String)
    (hmiss : cacheValid st now (jsToLower q) = false) :
    (searchPackages st now q (.success [])).1 = [] ∧
    (searchPackages st now q (.success [])).2.1.packageCache (jsToLower q) = some [] ∧
    (searchPackages st now q (.success [])).2.1.cacheExpiry (jsToLower q) =
      some (now + CACHE_DURATION) ∧
    (∀ (now₂ : Nat) (remote₂ : RemoteResponse (List SearchResultItem)),
      now₂ < now + CACHE_DURATION →
      searchPackages (searchPackages st now q (.success [])).2.1 now₂ q remote₂ =
        ([], (searchPackages st now q (.success [])).2.1, false)) ∧
    (searchPackages st now q .failure).2.1 = st := by
  have hres : (searchPackages st now q (.success [])).1 = [] := by
    rw [searchPackages_fetch_success st now q [] hmiss]
    simp
  have hpc : (searchPackages st now q (.success [])).2.1.packageCache (jsToLower q) =
      some [] := by
    rw [searchPackages_fetch_success st now q [] hmiss]
    simp
  have hce : (searchPackages st now q (.success [])).2.1.cacheExpiry (jsToLower q) =
      some (now + CACHE_DURATION) := by
    rw [searchPackages_fetch_success st now q [] hmiss]
    simp
  refine ⟨hres, hpc, hce, ?_, ?_⟩
  · intro now₂ remote₂ h2
    have hv2 : cacheValid (searchPackages st now q (.success [])).2.1 now₂
        (jsToLower q) = true := by
      simp only [cacheValid, hpc, hce]
      simp
      omega
    rw [searchPackages_cacheHit _ now₂ q remote₂ hv2, hpc]
    rfl
  · rw [searchPackages_fetch_failure st now q hmiss]

/-- Claim C4: on dot-separated non-negative-integer version strings the
source comparator agrees in sign with the reference definition from the
specification (`specCompareSegments`: segment-by-segment from the most
significant, an absent segment contributes `0`, the first unequal pair
decides); in particular `compare("2.1","2.1.0") = 0` and
`compare("1.2.3","1.10.0") < 0` — numeric, not lexical, comparison. -/
theorem claim_c4_comparator_reference (a b : String)
    (ha : isDottedNat a = true) (hb : isDottedNat b = true) :
    intSign (compareVersions a b) =
      specCompareSegments (versionSegments a) (versionSegments b) ∧
    compareVersions "2.1" "2.1.0" = 0 ∧
    compareVersions "1.2.3" "1.10.0" < 0 :=
  ⟨compareVersions_spec a b, by decide, by decide⟩

/-- Claim C5: on dot-separated non-negative-integer version strings the
comparator is antisymmetric (`compare(a,b) = -compare(b,a)`) and reflexively
zero (`compare(a,a) = 0`). -/
theorem claim_c5_comparator_antisym (a b : String)
    (ha : isDottedNat a = true) (hb : isDottedNat b = true) :
    compareVersions a b = -compareVersions b a ∧ compareVersions a a = 0 :=
  ⟨compareVersions_antisymm a b, compareVersions_self a⟩

/-- Claim C3: the version-completion pipeline keeps exactly the versions
without a hyphen that literally start with the typed prefix, sorts them
descending by the numeric comparator, and truncates to at most the first
ten; in particular on `["1.0.0","1.0.0-beta","1.1.0","2.0.0"]` with prefix
`"1"` it produces `["1.1.0","1.0.0"]`. -/
theorem claim_c3_version_pipeline (versions : List String) (versionPfx : String) :
    (filterSortVersions versions versionPfx).length ≤ 10 ∧
    (∀ v ∈ filterSortVersions versions versionPfx,
      v ∈ versions ∧ jsIncludes v "-" = false ∧ jsStartsWith v versionPfx = true) ∧
    (filterSortVersions versions versionPfx).Pairwise
      (fun x y => compareVersions y x ≤ 0) ∧
    ((versions.filter
        (fun v => !(jsIncludes v "-") && jsStartsWith v versionPfx)).length ≤ 10 →
      List.Perm (filterSortVersions versions versionPfx)
        (versions.filter (fun v => !(jsIncludes v "-") && jsStartsWith v versionPfx))) ∧
    filterSortVersions ["1.0.0", "1.0.0-beta", "1.1.0", "2.0.0"] "1" =
      ["1.1.0", "1.0.0"] := by
  refine ⟨?_, ?_, ?_, ?_, by decide⟩
  · unfold filterSortVersions
    exact List.length_take_le 10 _
  · intro v hv
    have hv' : v ∈ stableSort versionSortLe
        (versions.filter (fun v => !(jsIncludes v "-") && jsStartsWith v versionPfx)) :=
      List.mem_of_mem_take hv
    have hv'' := (stableSort_perm versionSortLe _).mem_iff.mp hv'
    have := List.mem_filter.mp hv''
    refine ⟨this.1, ?_, ?_⟩
    · have h := this.2
      simp only [Bool.and_eq_true, Bool.not_eq_true'] at h
      exact h.1
    · have h := this.2
      simp only [Bool.and_eq_true, Bool.not_eq_true'] at h
      exact h.2
  · have hs := stableSort_pairwise versionSortLe versionSortLe_trans versionSortLe_total
      (versions.filter (fun v => !(jsIncludes v "-") && jsStartsWith v versionPfx))
    have ht : (filterSortVersions versions versionPfx).Pairwise
        (fun a b => versionSortLe a b = true) :=
      hs.sublist (List.take_sublist 10 _)
    exact ht.imp (fun h => by simpa [versionSortLe, decide_eq_true_eq] using h)
  · intro hlen
    unfold filterSortVersions
    have hlen' : (stableSort versionSortLe
        (versions.filter (fun v => !(jsIncludes v "-") && jsStartsWith v versionPfx))).length ≤ 10 := by
      rw [(stableSort_perm versionSortLe _).length_eq]
      exact hlen
    rw [List.take_of_length_le hlen']
    exact stableSort_perm versionSortLe _

/-! ### Resolver and hover claims -/

theorem validDottedId_ne_nil {r : List Char} (h : validDottedId r = true) : r ≠ [] := by
  unfold validDottedId at h
  simp only [Bool.and_eq_true, Bool.not_eq_true'] at h
  intro hr
  subst hr
  simp at h

theorem matchPackageVersion_pid {l pid vp : List Char}
    (h : matchPackageVersion l = some (pid, vp)) : pid ≠ [] := by
  by_cases h1 : "#:package".data.isPrefixOf l
  · by_cases h2 : ((l.drop 9).takeWhile isJsSpace).isEmpty
    · simp [matchPackageVersion, h1, h2] at h
    · by_cases h3 : validDottedId
        (((l.drop 9).dropWhile isJsSpace).takeWhile (fun c => isWordChar c || c = '.'))
      · by_cases h4 : ((l.drop 9).dropWhile isJsSpace)[(((l.drop 9).dropWhile
            isJsSpace).takeWhile (fun c => isWordChar c || c = '.')).length]? = some '@'
        · simp [matchPackageVersion, h1, h2, h3, h4] at h
          obtain ⟨hpid, -⟩ := h
          rw [← hpid]
          exact validDottedId_ne_nil h3
        · simp [matchPackageVersion, h1, h2, h3, h4] at h
      · simp [matchPackageVersion, h1, h2, h3] at h
  · simp [matchPackageVersion, h1] at h

/-- Claim C7 counterexample: on the line prefix `"#:package "` (directive
typed, package-name prefix still empty) the `extension.ts` resolver hands
the empty query straight to `searchPackages` — the claimed short-circuit
does not exist in that file. -/
theorem claim_c7_counterexample :
    resolveClientCallExt "#:package " = ClientCall.search "" := by decide

/-- Claim C7 (amended): in `part_000`'s `DirectiveCompletionProvider` the
resolver never issues a client call with an empty query — an empty typed
package-name prefix short-circuits to no suggestions before
`searchPackages`, and `getVersionCompletions` always receives the nonempty
`\w+(\.\w+)*` package id — but `extension.ts`'s
`PackageCompletionProvider` has no such guard and calls `searchPackages`
with the empty query when only `"#:package "` has been typed. -/
theorem claim_c7_amended (linePfx : String) :
    (∀ q, resolveClientCallDirective linePfx = ClientCall.search q → q ≠ "") ∧
    (∀ pid vp, resolveClientCallDirective linePfx = ClientCall.versions pid vp → pid ≠ "") ∧
    resolveClientCallExt "#:package " = ClientCall.search "" := by
  refine ⟨?_, ?_, by decide⟩
  · intro q hq
    cases hm : matchPackageQuery linePfx.data with
    | none => simp [resolveClientCallDirective, hm] at hq
    | some q0 =>
      cases hv : matchPackageVersion linePfx.data with
      | some pv =>
        obtain ⟨pid0, vp0⟩ := pv
        simp [resolveClientCallDirective, hm, hv] at hq
      | none =>
        by_cases hq0 : (⟨q0⟩ : String) = ""
        · simp [resolveClientCallDirective, hm, hv, hq0] at hq
        · simp only [resolveClientCallDirective, hm, hv, if_neg hq0] at hq
          obtain ⟨rfl⟩ := hq
          exact hq0
  · intro pid vp hpv
    cases hm : matchPackageQuery linePfx.data with
    | none => simp [resolveClientCallDirective, hm] at hpv
    | some q0 =>
      cases hv : matchPackageVersion linePfx.data with
      | none =>
        by_cases hq0 : (⟨q0⟩ : String) = "" <;>
          simp [resolveClientCallDirective, hm, hv, hq0] at hpv
      | some pv =>
        obtain ⟨pid0, vp0⟩ := pv
        simp only [resolveClientCallDirective, hm, hv, ClientCall.versions.injEq] at hpv
        obtain ⟨hpid, -⟩ := hpv
        rw [← hpid]
        intro hcontra
        exact matchPackageVersion_pid hv (congrArg String.data hcontra)

/-- Claim C9 counterexample: in `part_000`'s `DirectiveHoverProvider`, a
hover over the version portion of `"#:package Humanizer@2.14.1"` (word
range `[20, 26)`, whose text `"2.14.1"` does not contain the first
dot-segment `"Humanizer"` of the parsed package id) still produces a
package hover once the remote lookup succeeds: the claimed containment
check does not exist in that file. -/
theorem claim_c9_counterexample :
    (matchHoverPackage "#:package Humanizer@2.14.1".data).map Prod.fst =
      some "Humanizer".data ∧
    listContainsSub (jsSubstring "#:package Humanizer@2.14.1".data 20 26)
      (firstDotSegment "Humanizer".data) = false ∧
    getPackageHoverDirective "#:package Humanizer@2.14.1" (some (20, 26))
      (.success [{ id := "Humanizer", version := "2.14.1", description := none,
                   totalDownloads := some 500000000 }]) =
      some { id := "Humanizer", version := "2.14.1", description := none,
             totalDownloads := some 500000000 } :=
  ⟨by decide, by decide, by decide⟩

/-- Claim C9 (amended): in `extension.ts`'s `PackageHoverProvider` a
package hover is produced only when the hovered word range's text contains
(as a substring) the first dot-segment of the package id parsed from the
line, and the hover yields nothing when that containment check fails; the
`DirectiveHoverProvider` in `part_000` omits the containment check and
produces a hover whenever the regex matches, a word range exists and the
remote lookup returns a record. -/
theorem claim_c9_amended (lineText : String) (wordRange : Option (Nat × Nat))
    (remote : RemoteResponse (List SearchResultItem)) :
    (∀ item, provideHoverExt lineText wordRange remote = some item →
      ∃ pid vp s e, matchHoverPackage lineText.data = some (pid, vp) ∧
        wordRange = some (s, e) ∧
        listContainsSub (jsSubstring lineText.data s e) (firstDotSegment pid) = true) ∧
    (∀ pid vp s e, matchHoverPackage lineText.data = some (pid, vp) →
      wordRange = some (s, e) →
      listContainsSub (jsSubstring lineText.data s e) (firstDotSegment pid) = false →
      provideHoverExt lineText wordRange remote = none) := by
  constructor
  · intro item hit
    cases hm : matchHoverPackage lineText.data with
    | none => simp [provideHoverExt, hm] at hit
    | some pv =>
      obtain ⟨pid, vp⟩ := pv
      cases hwr : wordRange with
      | none => simp [provideHoverExt, hm, hwr] at hit
      | some se =>
        obtain ⟨s, e⟩ := se
        cases hc : listContainsSub (jsSubstring lineText.data s e) (firstDotSegment pid) with
        | false => simp [provideHoverExt, hm, hwr, hc] at hit
        | true => exact ⟨pid, vp, s, e, rfl, rfl, hc⟩
  · intro pid vp s e hm hwr hc
    subst hwr
    simp [provideHoverExt, hm, hc]

/-- Claim C8 counterexample: both records have `totalDownloads` present and
the second has strictly more downloads, yet its sort key does not rank it
above the first: `String(999999999 - d)` is negative for download counts
above `999999999`, and the resulting strings (`"00000000-9"` versus
`"00000000-1"`) order by the digit after the minus sign, inverting the
intended ranking. -/
theorem claim_c8_counterexample :
    (1000000000 : Nat) < 1000000008 ∧
    ¬ranksAbove
      (createPackageCompletionItem
        { id := "B", version := "1.0.0", description := none,
          totalDownloads := some 1000000008 })
      (createPackageCompletionItem
        { id := "A", version := "1.0.0", description := none,
          totalDownloads := some 1000000000 }) := by
  refine ⟨by omega, ?_⟩
  unfold ranksAbove
  decide

/-- Claim C8 (amended): every completion item inserts
`id@latestVersion`, and among records whose `totalDownloads` are present
and at most `999999999` (so that `999999999 - totalDownloads` stays
non-negative), the record with the strictly greater count receives a sort
key that ranks it above the other. -/
theorem claim_c8_amended (pkg p₁ p₂ : NuGetPackage) (d₁ d₂ : Nat)
    (h₁ : p₁.totalDownloads = some d₁) (h₂ : p₂.totalDownloads = some d₂)
    (h12 : d₁ < d₂) (hb1 : d₁ ≤ 999999999) (hb2 : d₂ ≤ 999999999) :
    (createPackageCompletionItem pkg).insertText = pkg.id ++ "@" ++ pkg.version ∧
    ranksAbove (createPackageCompletionItem p₂) (createPackageCompletionItem p₁) := by
  refine ⟨rfl, ?_⟩
  unfold ranksAbove createPackageCompletionItem
  simp only [h₁, h₂]
  rw [if_pos (show jsTruthyNat (some d₂) = true by simp [jsTruthyNat]; omega)]
  by_cases hz : d₁ = 0
  · subst hz
    rw [if_neg (show ¬jsTruthyNat (some 0) = true by simp [jsTruthyNat])]
    simpa using sortText_lt_nines d₂ (by omega) hb2
  · rw [if_pos (show jsTruthyNat (some d₁) = true by simp [jsTruthyNat]; omega)]
    simpa using sortText_string_lt d₁ d₂ h12 hb2

/-! ### Witnesses -/

/-- Witness for claim C1 at a concrete input: a first fetch at time `0`
issues a request, and the repeat query at time `1` (within the five-minute
window) is answered from the cache with no request. -/
theorem claim_c1_witness :
    (searchPackages initialState 0 "Json" (.success [])).2.2 = true ∧
    searchPackages (searchPackages initialState 0 "Json" (.success [])).2.1 1 "Json"
        .failure =
      ((searchPackages initialState 0 "Json" (.success [])).1,
       (searchPackages initialState 0 "Json" (.success [])).2.1, false) :=
  ⟨by decide,
   (claim_c1_cache_window initialState 0 1 "Json" [] [] .failure (by decide)).2.1 (by decide)⟩

/-- Witness for claim C2 at a concrete input: a failing search on the empty
initial state returns the empty list, leaves the state unchanged, and the
retry at time `5` issues the request again. -/
theorem claim_c2_witness :
    cacheValid initialState 0 (jsToLower "Json") = false ∧
    searchPackages initialState 0 "Json" .failure = ([], initialState, true) ∧
    (searchPackages initialState 5 "Json" .failure).2.2 = true :=
  ⟨by decide,
   (claim_c2_failure_isolation initialState 0 "Json" (by decide)).1,
   (claim_c2_failure_isolation initialState 0 "Json" (by decide)).2 5 .failure (by decide)⟩

/-- Witness for claim C3 at the specification's own example input. -/
theorem claim_c3_witness :
    (filterSortVersions ["1.0.0", "1.0.0-beta", "1.1.0", "2.0.0"] "1").length ≤ 10 ∧
    List.Perm (filterSortVersions ["1.0.0", "1.0.0-beta", "1.1.0", "2.0.0"] "1")
      ((["1.0.0", "1.0.0-beta", "1.1.0", "2.0.0"] : List String).filter
        (fun v => !(jsIncludes v "-") && jsStartsWith v "1")) :=
  ⟨(claim_c3_version_pipeline ["1.0.0", "1.0.0-beta", "1.1.0", "2.0.0"] "1").1,
   (claim_c3_version_pipeline ["1.0.0", "1.0.0-beta", "1.1.0", "2.0.0"] "1").2.2.2.1
     (by decide)⟩

/-- Witness for claim C4 at concrete dotted-integer inputs. -/
theorem claim_c4_witness :
    isDottedNat "1.2" = true ∧ isDottedNat "1.10" = true ∧
    (intSign (compareVersions "1.2" "1.10") =
        specCompareSegments (versionSegments "1.2") (versionSegments "1.10") ∧
      compareVersions "2.1" "2.1.0" = 0 ∧
      compareVersions "1.2.3" "1.10.0" < 0) :=
  ⟨by decide, by decide,
   claim_c4_comparator_reference "1.2" "1.10" (by decide) (by decide)⟩

/-- Witness for claim C5 at concrete dotted-integer inputs. -/
theorem claim_c5_witness :
    isDottedNat "1.2" = true ∧ isDottedNat "2.1.0" = true ∧
    (compareVersions "1.2" "2.1.0" = -compareVersions "2.1.0" "1.2" ∧
      compareVersions "1.2" "1.2" = 0) :=
  ⟨by decide, by decide,
   claim_c5_comparator_antisym "1.2" "2.1.0" (by decide) (by decide)⟩

/-- Witness for claim C6 at the specification's `"ABC"`/`"abc"` example. -/
theorem claim_c6_witness :
    jsToLower "ABC" = jsToLower "abc" ∧
    searchPackages initialState 0 "ABC" .failure =
      searchPackages initialState 0 "abc" .failure :=
  ⟨by decide, claim_c6_cache_key_case initialState 0 "ABC" "abc" .failure (by decide)⟩

/-- Witness for the amended claim C7 at a concrete line prefix. -/
theorem claim_c7_witness :
    resolveClientCallDirective "#:package Hum" = ClientCall.search "Hum" ∧
    ("Hum" : String) ≠ "" :=
  ⟨by decide, (claim_c7_amended "#:package Hum").1 "Hum" (by decide)⟩

/-- Witness for the amended claim C8 at concrete records (the
specification's Humanizer example against a less-downloaded package). -/
theorem claim_c8_witness :
    (createPackageCompletionItem
      { id := "Humanizer", version := "2.14.1", description := none,
        totalDownloads := some 500000000 }).insertText =
      "Humanizer" ++ "@" ++ "2.14.1" ∧
    ranksAbove
      (createPackageCompletionItem
        { id := "Humanizer", version := "2.14.1", description := none,
          totalDownloads := some 500000000 })
      (createPackageCompletionItem
        { id := "A", version := "1.0", description := none,
          totalDownloads := some 100 }) :=
  claim_c8_amended
    { id := "Humanizer", version := "2.14.1", description := none,
      totalDownloads := some 500000000 }
    { id := "A", version := "1.0", description := none, totalDownloads := some 100 }
    { id := "Humanizer", version := "2.14.1", description := none,
      totalDownloads := some 500000000 }
    100 500000000 rfl rfl (by decide) (by decide) (by decide)

/-- Witness for the amended claim C9 at a concrete hover: the hovered
version text does not contain `"Humanizer"`, so the `extension.ts` hover
yields nothing. -/
theorem claim_c9_witness :
    matchHoverPackage "#:package Humanizer@2.14.1".data =
      some ("Humanizer".data, "2.14.1".data) ∧
    listContainsSub (jsSubstring "#:package Humanizer@2.14.1".data 20 26)
      (firstDotSegment "Humanizer".data) = false ∧
    provideHoverExt "#:package Humanizer@2.14.1" (some (20, 26)) (.success []) = none :=
  ⟨by decide, by decide,
   (claim_c9_amended "#:package Humanizer@2.14.1" (some (20, 26)) (.success [])).2
     "Humanizer".data "2.14.1".data 20 26 (by decide) rfl (by decide)⟩

/-- Witness for claim C10 at a concrete input: a zero-result success at
time `0` caches the empty list, and the repeat query at time `1` is served
from the cache even though the remote would fail. -/
theorem claim_c10_witness :
    cacheValid initialState 0 (jsToLower "Json") = false ∧
    (searchPackages initialState 0 "Json" (.success [])).1 = [] ∧
    searchPackages (searchPackages initialState 0 "Json" (.success [])).2.1 1 "Json"
        .failure =
      ([], (searchPackages initialState 0 "Json" (.success [])).2.1, false) :=
  ⟨by decide,
   (claim_c10_empty_result_cached initialState 0 "Json" (by decide)).1,
   (claim_c10_empty_result_cached initialState 0 "Json" (by decide)).2.2.2.1 1 .failure
     (by decide)⟩
